import Mathlib

/-!
Verification development for the `xmpp` package (file `xmpp/xmpp.go`), a
minimal XMPP client around a `Conn` value holding an outgoing transport,
an XML decoder bound to a transport, and an optional error channel.

The Go code is shallowly embedded: the fixed `fmt.Fprintf` stanza templates
become Lean functions from the interpolated arguments to the emitted byte
sequence (`List Char`); the per-operation error handling (`if err != nil
{ c.errchan <- err }` versus `return err`) becomes an explicit error
disposition value computed from the optional channel state, following Go's
channel-send semantics; the streaming XML token source becomes a list of
token results.  The random IQ id produced by `id()` is passed in as an
explicit argument, since the claims under study do not concern its
distribution.
-/

namespace Xmpp

/-- Abstract Go `error` values (distinguished by origin and an abstract code),
standing in for values produced by `net`, `encoding/xml`, `errors.New`, and
write failures. -/
inductive GoError
  | dialFailed (code : Nat)
  | writeFailed (code : Nat)
  | tokenFailed (code : Nat)
  | decodeFailed (code : Nat)
  | invalidXMLResponse
deriving DecidableEq

/-- State of a Go channel of errors: buffer capacity, number of queued
values, and whether a receiver is currently blocked on the channel. -/
structure ErrChan where
  cap : Nat
  pending : Nat
  receiverWaiting : Bool
deriving DecidableEq

/-- Outcome of a Go channel send `ch <- v`. -/
inductive SendOutcome
  | delivered
  | blockedForever
  | blockedUntilReceiver
deriving DecidableEq

/-- Go channel-send semantics for `c.errchan <- err`: a send on a `nil`
channel (no channel ever installed) blocks forever; a send on a buffered
channel with free buffer space completes; otherwise the send completes only
if a receiver is already waiting, and blocks until some receiver arrives
otherwise. -/
def chanSend : Option ErrChan → SendOutcome
  | none => .blockedForever
  | some ch =>
    if ch.pending < ch.cap then .delivered
    else if ch.receiverWaiting then .delivered
    else .blockedUntilReceiver

/-- How an operation of `Conn` disposes of a possible error: no error arose,
the error was sent on `c.errchan` (with the channel-send outcome recorded),
or the error was returned to the caller. -/
inductive ErrDisp
  | quiet
  | sunk (o : SendOutcome)
  | returned (e : GoError)
deriving DecidableEq

/-- Shared error path of every fire-and-forget operation in `xmpp.go`:
`if _, err := fmt.Fprintf(...); err != nil { c.errchan <- err }` (and the
identical `DecodeElement` pattern in `Features`, `Body`, `Query`).  The
first argument is the state of `c.errchan`, the second the error produced
by the underlying call, if any. -/
def fireAndForget (sink : Option ErrChan) : Option GoError → ErrDisp
  | none => .quiet
  | some _ => .sunk (chanSend sink)

/-! ## HTML escaping (Go `html.EscapeString`) and its XML decode -/

/-- The single-quote character, written via its code point. -/
def squote : Char := Char.ofNat 39

/-- Escape of one character under Go's `html.EscapeString`, which replaces
exactly the five characters `&`, `'`, `<`, `>`, `"` by `&amp;`, `&#39;`,
`&lt;`, `&gt;`, `&#34;` and leaves every other character unchanged. -/
def escapeChar (c : Char) : List Char :=
  if c = '&' then "&amp;".toList
  else if c = squote then "&#39;".toList
  else if c = '<' then "&lt;".toList
  else if c = '>' then "&gt;".toList
  else if c = '"' then "&#34;".toList
  else [c]

/-- Go's `html.EscapeString`, character by character. -/
def escapeString : List Char → List Char
  | [] => []
  | c :: rest => escapeChar c ++ escapeString rest

/-- XML text decoding for the escaping used by `html.EscapeString`: each of
the five entity references it emits decodes back to its character, and any
other character is taken literally. -/
def unescape : List Char → List Char
  | [] => []
  | c :: rest =>
    if c = '&' then
      match rest with
      | 'a' :: 'm' :: 'p' :: ';' :: r => '&' :: unescape r
      | '#' :: '3' :: '9' :: ';' :: r => squote :: unescape r
      | 'l' :: 't' :: ';' :: r => '<' :: unescape r
      | 'g' :: 't' :: ';' :: r => '>' :: unescape r
      | '#' :: '3' :: '4' :: ';' :: r => '"' :: unescape r
      | r => c :: unescape r
    else c :: unescape rest
termination_by l => l.length
decreasing_by all_goals (simp <;> omega)

/-- Well-formedness of XML character data under the escaping in use: no raw
`<` may appear, and every `&` must begin one of the five entity references
that `html.EscapeString` emits. -/
def wfText : List Char → Bool
  | [] => true
  | c :: rest =>
    if c = '<' then false
    else if c = '&' then
      match rest with
      | 'a' :: 'm' :: 'p' :: ';' :: r => wfText r
      | '#' :: '3' :: '9' :: ';' :: r => wfText r
      | 'l' :: 't' :: ';' :: r => wfText r
      | 'g' :: 't' :: ';' :: r => wfText r
      | '#' :: '3' :: '4' :: ';' :: r => wfText r
      | _ => false
    else wfText rest
termination_by l => l.length
decreasing_by all_goals (simp <;> omega)

theorem escapeChar_amp : escapeChar '&' = "&amp;".toList := by decide

theorem escapeChar_squote : escapeChar squote = "&#39;".toList := by decide

theorem escapeChar_lt : escapeChar '<' = "&lt;".toList := by decide

theorem escapeChar_gt : escapeChar '>' = "&gt;".toList := by decide

theorem escapeChar_quot : escapeChar '"' = "&#34;".toList := by decide

theorem escapeChar_other (c : Char) (h1 : c ≠ '&') (h2 : c ≠ squote)
    (h3 : c ≠ '<') (h4 : c ≠ '>') (h5 : c ≠ '"') : escapeChar c = [c] := by
  simp [escapeChar, h1, h2, h3, h4, h5]

theorem unescape_amp (l : List Char) :
    unescape ('&' :: 'a' :: 'm' :: 'p' :: ';' :: l) = '&' :: unescape l := by
  simp [unescape]

theorem unescape_squoteEnt (l : List Char) :
    unescape ('&' :: '#' :: '3' :: '9' :: ';' :: l) = squote :: unescape l := by
  simp [unescape]

theorem unescape_lt (l : List Char) :
    unescape ('&' :: 'l' :: 't' :: ';' :: l) = '<' :: unescape l := by
  simp [unescape]

theorem unescape_gt (l : List Char) :
    unescape ('&' :: 'g' :: 't' :: ';' :: l) = '>' :: unescape l := by
  simp [unescape]

theorem unescape_quotEnt (l : List Char) :
    unescape ('&' :: '#' :: '3' :: '4' :: ';' :: l) = '"' :: unescape l := by
  simp [unescape]

theorem unescape_other (c : Char) (l : List Char) (h : c ≠ '&') :
    unescape (c :: l) = c :: unescape l := by
  rw [unescape.eq_def]
  simp [h]

theorem unescape_escapeChar (c : Char) (l : List Char) :
    unescape (escapeChar c ++ l) = c :: unescape l := by
  by_cases h1 : c = '&'
  · subst h1; rw [escapeChar_amp]; exact unescape_amp l
  by_cases h2 : c = squote
  · subst h2; rw [escapeChar_squote]; exact unescape_squoteEnt l
  by_cases h3 : c = '<'
  · subst h3; rw [escapeChar_lt]; exact unescape_lt l
  by_cases h4 : c = '>'
  · subst h4; rw [escapeChar_gt]; exact unescape_gt l
  by_cases h5 : c = '"'
  · subst h5; rw [escapeChar_quot]; exact unescape_quotEnt l
  · rw [escapeChar_other c h1 h2 h3 h4 h5, List.singleton_append,
      unescape_other c l h1]

theorem unescape_escapeString (s : List Char) :
    unescape (escapeString s) = s := by
  induction s with
  | nil => simp [escapeString, unescape]
  | cons c r ih => rw [escapeString, unescape_escapeChar, ih]

theorem wfText_other (c : Char) (l : List Char) (h1 : c ≠ '<') (h2 : c ≠ '&') :
    wfText (c :: l) = wfText l := by
  rw [wfText.eq_def]
  simp [h1, h2]

theorem wfText_append_escapeChar (c : Char) (l : List Char) :
    wfText (escapeChar c ++ l) = wfText l := by
  by_cases h1 : c = '&'
  · subst h1; rw [escapeChar_amp]; simp [wfText]
  by_cases h2 : c = squote
  · subst h2; rw [escapeChar_squote]; simp [wfText]
  by_cases h3 : c = '<'
  · subst h3; rw [escapeChar_lt]; simp [wfText]
  by_cases h4 : c = '>'
  · subst h4; rw [escapeChar_gt]; simp [wfText]
  by_cases h5 : c = '"'
  · subst h5; rw [escapeChar_quot]; simp [wfText]
  · rw [escapeChar_other c h1 h2 h3 h4 h5, List.singleton_append,
      wfText_other c l h3 h1]

theorem wfText_escapeString (s : List Char) : wfText (escapeString s) = true := by
  induction s with
  | nil => simp [escapeString, wfText]
  | cons c r ih => rw [escapeString, wfText_append_escapeChar, ih]

theorem gt_notMem_escapeChar (c : Char) : '>' ∉ escapeChar c := by
  by_cases h1 : c = '&'
  · subst h1; decide
  by_cases h2 : c = squote
  · subst h2; decide
  by_cases h3 : c = '<'
  · subst h3; decide
  by_cases h4 : c = '>'
  · subst h4; decide
  by_cases h5 : c = '"'
  · subst h5; decide
  · simp [escapeChar, h1, h2, h3, h4, h5]
    exact fun h => h4 h.symm

theorem gt_notMem_escapeString (s : List Char) : '>' ∉ escapeString s := by
  induction s with
  | nil => simp [escapeString]
  | cons c r ih =>
    rw [escapeString]
    intro h
    rcases List.mem_append.1 h with h' | h'
    · exact gt_notMem_escapeChar c h'
    · exact ih h'

/-! ## Namespace constants and stanza templates

Each `fmt.Fprintf` template constant of `xmpp.go` becomes a function from
its interpolated arguments (in the order the call site passes them) to the
emitted character sequence.  The random request id produced by `id()` is an
explicit argument `i`. -/

def NsJabberClient : List Char := "jabber:client".toList

def NsStream : List Char := "http://etherx.jabber.org/streams".toList

def NsIqAuth : List Char := "jabber:iq:auth".toList

def NsIqRoster : List Char := "jabber:iq:roster".toList

def NsTLS : List Char := "urn:ietf:params:xml:ns:xmpp-tls".toList

def NsDisco : List Char := "http://jabber.org/protocol/disco#items".toList

def NsMuc : List Char := "http://jabber.org/protocol/muc".toList

/-- Bytes written by `Stream(jid, host)`: the `xmlStream` template applied to
`jid, host, NsJabberClient, NsStream`. -/
def streamPayload (jid host : List Char) : List Char :=
  "<stream:stream from='".toList ++ jid ++ "' to='".toList ++ host ++
    "' version='1.0' xml:lang='en' xmlns='".toList ++ NsJabberClient ++
    "' xmlns:stream='".toList ++ NsStream ++ "'>".toList

/-- Bytes written by `StartTLS()`: the `xmlStartTLS` template applied to `NsTLS`. -/
def startTLSPayload : List Char :=
  "<starttls xmlns='".toList ++ NsTLS ++ "'/>".toList

/-- Bytes written by `Auth(user, pass, resource)`: the `xmlIqSet` template
applied to `id(), NsIqAuth, user, pass, resource`. -/
def authPayload (i user pass resource : List Char) : List Char :=
  "<iq type='set' id='".toList ++ i ++ "'><query xmlns='".toList ++ NsIqAuth ++
    "'><username>".toList ++ user ++ "</username><password>".toList ++ pass ++
    "</password><resource>".toList ++ resource ++ "</resource></query></iq>".toList

/-- The `xmlIqGet` template applied to `frm, to, i, ns`; used by both
`Discover` (with `NsDisco`) and `Roster` (with `NsIqRoster`). -/
def iqGetPayload (frm toA i ns : List Char) : List Char :=
  "<iq from='".toList ++ frm ++ "' to='".toList ++ toA ++ "' id='".toList ++ i ++
    "' type='get'><query xmlns='".toList ++ ns ++ "'/></iq>".toList

/-- Bytes written by `Discover(from, to)`. -/
def discoverPayload (frm toA i : List Char) : List Char :=
  iqGetPayload frm toA i NsDisco

/-- Bytes written by `Roster(from, to)`. -/
def rosterPayload (frm toA i : List Char) : List Char :=
  iqGetPayload frm toA i NsIqRoster

/-- Bytes written by `Presence(jid, pres)`: the `xmlPresence` template. -/
def presencePayload (jid pres : List Char) : List Char :=
  "<presence from='".toList ++ jid ++ "'><show>".toList ++ pres ++
    "</show></presence>".toList

/-- Bytes written by `MUCPart(roomId)`: the `xmlMUCPart` template. -/
def mucPartPayload (roomId : List Char) : List Char :=
  "<presence to='".toList ++ roomId ++ "' type='unavailable'></presence>".toList

/-- Bytes written by `MUCPresence(roomId, jid)`: the `xmlMUCPresence`
template applied to `id(), roomId, jid, NsMuc`. -/
def mucPresencePayload (i roomId jid : List Char) : List Char :=
  "<presence id='".toList ++ i ++ "' to='".toList ++ roomId ++ "' from='".toList ++
    jid ++ "'><x xmlns='".toList ++ NsMuc ++ "'/></presence>".toList

/-- Bytes written by `MUCSend(mtype, to, from, body)`: the `xmlMUCMessage`
template applied to `from, id(), to, mtype, html.EscapeString(body)`.  Only
the body argument passes through `html.EscapeString`. -/
def mucSendPayload (mtype toA frm bod i : List Char) : List Char :=
  "<message from='".toList ++ frm ++ "' id='".toList ++ i ++ "' to='".toList ++
    toA ++ "' type='".toList ++ mtype ++ "'><body>".toList ++ escapeString bod ++
    "</body></message>".toList

/-- Bytes written by `KeepAlive()`: `fmt.Fprintf(c.outgoing, " ")`. -/
def keepAlivePayload : List Char := " ".toList

/-! ## Connection model: transports, Dial, UseTLS -/

/-- A value of Go interface type `net.Conn` as this package uses it:
`nilConn` is the zero value, `tcp sock` a socket from `net.Dial`, and
`tlsClient inner host` the wrapper built by `tls.Client(inner,
&tls.Config{ServerName: host})`. -/
inductive Transport
  | nilConn
  | tcp (sock : Nat)
  | tlsClient (inner : Transport) (serverName : List Char)
deriving DecidableEq

/-- The `Conn` struct: `incoming` is the transport the `xml.Decoder` reads
from (`none` when the decoder field is nil), `outgoing` the write-side
transport, `errchan` the optional error channel state. -/
structure ConnM where
  incoming : Option Transport
  outgoing : Transport
  errchan : Option ErrChan
deriving DecidableEq

/-- The connection produced by `new(Conn)`: all fields at their zero value. -/
def zeroConn : ConnM :=
  { incoming := none, outgoing := .nilConn, errchan := none }

/-- The dial address string `host + ":5222"`. -/
def dialAddr (host : List Char) : List Char := host ++ ":5222".toList

/-- What `Dial(host)` did: the address handed to `net.Dial("tcp", ...)`, the
connection object returned (never nil: `c := new(Conn)` precedes the dial),
and the returned error. -/
structure DialResult where
  addr : List Char
  conn : ConnM
  err : Option GoError
deriving DecidableEq

/-- `Dial(host)`: allocates a zero `Conn`, attempts `net.Dial("tcp",
host+":5222")` (outcome passed in as `dial`), and on success stores the
socket and binds a fresh decoder to it.  Returns the connection object in
either case, plus the error. -/
def DialRun (host : List Char) (dial : Except GoError Nat) : DialResult :=
  match dial with
  | .error e => { addr := dialAddr host, conn := zeroConn, err := some e }
  | .ok sock =>
    { addr := dialAddr host
      conn := { incoming := some (.tcp sock), outgoing := .tcp sock,
                errchan := none }
      err := none }

/-- `UseTLS(host)`: replaces `outgoing` by `tls.Client(outgoing, ...)` with
SNI `host`, then rebinds the decoder with `xml.NewDecoder(c.outgoing)`. -/
def UseTLSRun (c : ConnM) (host : List Char) : ConnM :=
  { c with
    outgoing := .tlsClient c.outgoing host
    incoming := some (.tlsClient c.outgoing host) }

/-- `SetErrorChannel(channel)`: stores the channel. -/
def SetErrorChannelRun (c : ConnM) (ch : ErrChan) : ConnM :=
  { c with errchan := some ch }

/-! ## Operation runs

A writer operation attempts one `Fprintf`; whether the transport write
fails is an input (`werr`).  The pair returned is (bytes handed to the
transport, error disposition). -/

def StreamRun (sink : Option ErrChan) (jid host : List Char)
    (werr : Option GoError) : List Char × ErrDisp :=
  (streamPayload jid host, fireAndForget sink werr)

def StartTLSRun (sink : Option ErrChan) (werr : Option GoError) :
    List Char × ErrDisp :=
  (startTLSPayload, fireAndForget sink werr)

def AuthRun (sink : Option ErrChan) (user pass resource i : List Char)
    (werr : Option GoError) : List Char × ErrDisp :=
  (authPayload i user pass resource, fireAndForget sink werr)

def DiscoverRun (sink : Option ErrChan) (frm toA i : List Char)
    (werr : Option GoError) : List Char × ErrDisp :=
  (discoverPayload frm toA i, fireAndForget sink werr)

def PresenceRun (sink : Option ErrChan) (jid pres : List Char)
    (werr : Option GoError) : List Char × ErrDisp :=
  (presencePayload jid pres, fireAndForget sink werr)

def MUCPartRun (sink : Option ErrChan) (roomId : List Char)
    (werr : Option GoError) : List Char × ErrDisp :=
  (mucPartPayload roomId, fireAndForget sink werr)

def MUCPresenceRun (sink : Option ErrChan) (roomId jid i : List Char)
    (werr : Option GoError) : List Char × ErrDisp :=
  (mucPresencePayload i roomId jid, fireAndForget sink werr)

def MUCSendRun (sink : Option ErrChan) (mtype toA frm bod i : List Char)
    (werr : Option GoError) : List Char × ErrDisp :=
  (mucSendPayload mtype toA frm bod i, fireAndForget sink werr)

def RosterRun (sink : Option ErrChan) (frm toA i : List Char)
    (werr : Option GoError) : List Char × ErrDisp :=
  (rosterPayload frm toA i, fireAndForget sink werr)

/-- `KeepAlive()`: writes `" "` and returns the write error (or nil)
directly; it never touches `errchan`. -/
def KeepAliveRun (werr : Option GoError) : List Char × ErrDisp :=
  (keepAlivePayload,
    match werr with
    | some e => .returned e
    | none => .quiet)

/-! ## Reader operations

`Features`, `Body` and `Query` each call `DecodeElement` into a zero-value
buffer and, on a decode error, send the error on `c.errchan`; in all cases
they return the buffer (possibly partially filled, passed in as `buf`).
The decode outcome is an input, abstracting `encoding/xml`. -/

/-- The `features` struct: `StartTLS *required` (nil or not) and the
mechanism list. -/
structure FeaturesT where
  startTLS : Option Unit
  mechanisms : List (List Char)
deriving DecidableEq

/-- The `item` struct decoded inside a `query` result. -/
structure ItemT where
  email : List Char
  jid : List Char
  lastActive : List Char
  mentionName : List Char
  itemName : List Char
  numParticipants : List Char
  owner : List Char
  privacy : List Char
  roomId : List Char
  topic : List Char
deriving DecidableEq

def FeaturesRun (sink : Option ErrChan) (buf : FeaturesT)
    (derr : Option GoError) : FeaturesT × ErrDisp :=
  (buf, fireAndForget sink derr)

def BodyRun (sink : Option ErrChan) (buf : List Char)
    (derr : Option GoError) : List Char × ErrDisp :=
  (buf, fireAndForget sink derr)

def QueryRun (sink : Option ErrChan) (buf : List ItemT)
    (derr : Option GoError) : List ItemT × ErrDisp :=
  (buf, fireAndForget sink derr)

/-! ## The token stream and `Next` -/

/-- One XML attribute as decoded by `encoding/xml`: unprefixed local name
and value. -/
structure XmlAttr where
  nameLocal : List Char
  value : List Char
deriving DecidableEq

/-- An XML token as classified by `Next`'s type switch: a start element
(with its local name and attributes) or any other token kind (character
data, end element, comment, processing instruction, directive), all of
which `Next` skips identically. -/
inductive Token
  | start (nameLocal : List Char) (attrs : List XmlAttr)
  | other
deriving DecidableEq

/-- Result of one call to `c.incoming.Token()`. -/
inductive TokenResult
  | ok (t : Token)
  | err (e : GoError)
deriving DecidableEq

/-- The start element `Next` returns (`xml.StartElement` restricted to the
fields the package reads). -/
structure StartElt where
  nameLocal : List Char
  attrs : List XmlAttr
deriving DecidableEq

/-- The zero `xml.StartElement` that `Next` declares before its loop. -/
def zeroElt : StartElt := { nameLocal := [], attrs := [] }

/-- A token result the `Next` loop silently skips: a successful read of a
non-start-element token. -/
def skippable (t : TokenResult) : Prop := t = .ok .other

instance (t : TokenResult) : Decidable (skippable t) := by
  unfold skippable; infer_instance

/-- `Next()`: repeatedly calls `Token()`; a token error is returned at once
with the zero element; the first start element ends the loop, with the error
`"invalid xml response"` if its local name is empty; every other token is
skipped.  A modelled stream that runs out of tokens behaves as a transport
end-of-stream error from `Token()`. -/
def next : List TokenResult → StartElt × Option GoError
  | [] => (zeroElt, some (.tokenFailed 0))
  | .err e :: _ => (zeroElt, some e)
  | .ok (.start n a) :: _ =>
    if n = [] then ({ nameLocal := n, attrs := a }, some .invalidXMLResponse)
    else ({ nameLocal := n, attrs := a }, none)
  | .ok .other :: rest => next rest

/-- Error disposition of `Next()`: its error is returned to the caller;
`Next` never references `errchan`. -/
def nextDisp (s : List TokenResult) : ErrDisp :=
  match (next s).2 with
  | some e => .returned e
  | none => .quiet

/-! ## `ToMap` -/

/-- `ToMap(attr)`: builds a Go map by inserting each attribute in source
order, keyed by local name; modelled as the resulting lookup function. -/
def ToMap (attrs : List XmlAttr) : List Char → Option (List Char) :=
  attrs.foldl
    (fun m a => fun k => if k = a.nameLocal then some a.value else m k)
    (fun _ => none)

/-! ## A checker for well-formed single-quoted XML open tags

The emitted stream header is a single open tag whose attribute values are
single-quoted.  `parseOpenTag` implements the XML open-tag grammar
restricted to that quoting style: `'<' Name (' ' Name '=' squote Value
squote)* '>'`, where a Value may not contain a single quote, `<` or `&`
(the emitted headers contain no entity references).  Parsing recovers the
tag name and the attribute list; failure to parse means the emitted bytes
are not a well-formed open tag. -/

def isNameChar (c : Char) : Bool :=
  c.isAlpha || c.isDigit || c = ':' || c = '-' || c = '_' || c = '.'

def isAttrValChar (c : Char) : Bool :=
  !(c = squote || c = '<' || c = '&')

/-- Splits a maximal run of name characters off the front. -/
def parseNm : List Char → List Char × List Char
  | [] => ([], [])
  | c :: rest =>
    if isNameChar c then ((parseNm rest).1.cons c, (parseNm rest).2)
    else ([], c :: rest)

/-- Reads a single-quoted attribute value up to its closing quote. -/
def parseAttrVal : List Char → Option (List Char × List Char)
  | [] => none
  | c :: rest =>
    if c = squote then some ([], rest)
    else if isAttrValChar c then
      match parseAttrVal rest with
      | some (v, r) => some ((v.cons c), r)
      | none => none
    else none

/-- Reads the attribute section of an open tag: either the closing `>`
(which must end the input) or a space followed by `name='value'` and the
rest of the section.  The fuel bounds the number of attributes. -/
def parseAttrList : Nat → List Char → Option (List (List Char × List Char))
  | _, ['>'] => some []
  | fuel + 1, ' ' :: s =>
    match parseNm s with
    | ([], _) => none
    | (nm, r1) =>
      match r1 with
      | '=' :: c :: r3 =>
        if c = squote then
          match parseAttrVal r3 with
          | some (v, r4) =>
            match parseAttrList fuel r4 with
            | some l => some ((nm, v) :: l)
            | none => none
          | none => none
        else none
      | _ => none
  | _, _ => none

/-- Parses a complete single-quoted open tag, returning its name and
attribute list. -/
def parseOpenTag (s : List Char) : Option (List Char × List (List Char × List Char)) :=
  match s with
  | '<' :: r =>
    match parseNm r with
    | ([], _) => none
    | (nm, r1) => parseAttrList (r1.length + 1) r1
        |>.map (fun l => (nm, l))
  | _ => none

theorem parseNm_notName (c : Char) (l : List Char) (h : isNameChar c = false) :
    parseNm (c :: l) = ([], c :: l) := by
  simp [parseNm, h]

theorem parseNm_concat (n : List Char) (hn : ∀ c ∈ n, isNameChar c = true)
    (c0 : Char) (h0 : isNameChar c0 = false) (r : List Char) :
    parseNm (n ++ c0 :: r) = (n, c0 :: r) := by
  induction n with
  | nil => simpa using parseNm_notName c0 r h0
  | cons c n' ih =>
    have hc : isNameChar c = true := hn c (List.mem_cons_self c n')
    have ih' := ih (fun x hx => hn x (List.mem_cons_of_mem c hx))
    simp [parseNm, hc, ih']

theorem parseAttrVal_concat (v : List Char)
    (hv : ∀ c ∈ v, isAttrValChar c = true) (r : List Char) :
    parseAttrVal (v ++ squote :: r) = some (v, r) := by
  induction v with
  | nil => simp [parseAttrVal]
  | cons c v' ih =>
    have hc : isAttrValChar c = true := hv c (List.mem_cons_self c v')
    have hcq : ¬c = squote := by
      intro h
      subst h
      simp [isAttrValChar] at hc
    have ih' := ih (fun x hx => hv x (List.mem_cons_of_mem c hx))
    simp [parseAttrVal, hcq, hc, ih']

theorem parseAttrList_done (fuel : Nat) : parseAttrList fuel ['>'] = some [] := by
  cases fuel <;> rfl

theorem parseAttrList_cons (fuel : Nat) (nm v rest : List Char)
    (hnm : nm ≠ []) (hn : ∀ c ∈ nm, isNameChar c = true)
    (hv : ∀ c ∈ v, isAttrValChar c = true) :
    parseAttrList (fuel + 1)
        (' ' :: (nm ++ '=' :: squote :: (v ++ squote :: rest))) =
      (parseAttrList fuel rest).map (fun l => (nm, v) :: l) := by
  obtain ⟨c0, nm', rfl⟩ : ∃ c0 nm', nm = c0 :: nm' := by
    cases nm with
    | nil => exact absurd rfl hnm
    | cons a b => exact ⟨a, b, rfl⟩
  have hsp : (' ' :: (c0 :: nm' ++ '=' :: squote :: (v ++ squote :: rest))) ≠ ['>'] := by
    simp
  rw [parseAttrList.eq_def]
  have hpn := parseNm_concat (c0 :: nm') hn '=' (by decide)
    (squote :: (v ++ squote :: rest))
  simp only [List.cons_append] at hpn ⊢
  rw [hpn]
  simp only [reduceCtorEq, if_pos rfl]
  rw [parseAttrVal_concat v hv rest]
  cases h : parseAttrList fuel rest <;> simp [h]

/-- One `name='value'` attribute chunk, preceded by its separating space and
followed by the remainder of the attribute section. -/
def attrChunk (nm v rest : List Char) : List Char :=
  ' ' :: (nm ++ '=' :: squote :: (v ++ squote :: rest))

theorem parseAttrList_chunk (fuel : Nat) (nm v rest : List Char)
    (hnm : nm ≠ []) (hn : ∀ c ∈ nm, isNameChar c = true)
    (hv : ∀ c ∈ v, isAttrValChar c = true) :
    parseAttrList (fuel + 1) (attrChunk nm v rest) =
      (parseAttrList fuel rest).map (fun l => (nm, v) :: l) :=
  parseAttrList_cons fuel nm v rest hnm hn hv

/-- The attribute section of the emitted stream header, in chunk form. -/
def streamAttrSection (jid host : List Char) : List Char :=
  attrChunk "from".toList jid
    (attrChunk "to".toList host
      (attrChunk "version".toList "1.0".toList
        (attrChunk "xml:lang".toList "en".toList
          (attrChunk "xmlns".toList NsJabberClient
            (attrChunk "xmlns:stream".toList NsStream ['>'])))))

theorem streamPayload_shape (jid host : List Char) :
    streamPayload jid host =
      '<' :: ("stream:stream".toList ++ streamAttrSection jid host) := by
  have h0 : "<stream:stream from='".toList =
      '<' :: ("stream:stream".toList ++ ' ' :: ("from".toList ++ ['=', squote])) := by
    decide
  have h1 : "' to='".toList =
      squote :: ' ' :: ("to".toList ++ ['=', squote]) := by decide
  have h2 : "' version='1.0' xml:lang='en' xmlns='".toList =
      squote :: ' ' :: ("version".toList ++ '=' :: squote ::
        ("1.0".toList ++ squote :: ' ' :: ("xml:lang".toList ++ '=' :: squote ::
          ("en".toList ++ squote :: ' ' :: ("xmlns".toList ++ ['=', squote]))))) := by
    decide
  have h3 : "' xmlns:stream='".toList =
      squote :: ' ' :: ("xmlns:stream".toList ++ ['=', squote]) := by decide
  have h4 : "'>".toList = [squote, '>'] := by decide
  rw [streamPayload, h0, h1, h2, h3, h4]
  simp [streamAttrSection, attrChunk]

/-- The parsed attribute list of the stream header. -/
def streamAttrsOut (jid host : List Char) : List (List Char × List Char) :=
  [("from".toList, jid), ("to".toList, host),
   ("version".toList, "1.0".toList), ("xml:lang".toList, "en".toList),
   ("xmlns".toList, NsJabberClient), ("xmlns:stream".toList, NsStream)]

theorem parseAttrList_streamSection (fuel : Nat) (jid host : List Char)
    (hj : ∀ c ∈ jid, isAttrValChar c = true)
    (hh : ∀ c ∈ host, isAttrValChar c = true) :
    parseAttrList (fuel + 6) (streamAttrSection jid host) =
      some (streamAttrsOut jid host) := by
  rw [streamAttrSection]
  rw [parseAttrList_chunk (fuel + 5) _ _ _ (by decide) (by decide) hj]
  rw [parseAttrList_chunk (fuel + 4) _ _ _ (by decide) (by decide) hh]
  rw [parseAttrList_chunk (fuel + 3) _ _ _ (by decide) (by decide) (by decide)]
  rw [parseAttrList_chunk (fuel + 2) _ _ _ (by decide) (by decide) (by decide)]
  rw [parseAttrList_chunk (fuel + 1) _ _ _ (by decide) (by decide) (by decide)]
  rw [parseAttrList_chunk fuel _ _ _ (by decide) (by decide) (by decide)]
  rw [parseAttrList_done]
  simp [streamAttrsOut]

theorem parseOpenTag_streamPayload (jid host : List Char)
    (hj : ∀ c ∈ jid, isAttrValChar c = true)
    (hh : ∀ c ∈ host, isAttrValChar c = true) :
    parseOpenTag (streamPayload jid host) =
      some ("stream:stream".toList, streamAttrsOut jid host) := by
  have hpn : parseNm ("stream:stream".toList ++ streamAttrSection jid host) =
      ("stream:stream".toList, streamAttrSection jid host) := by
    rw [streamAttrSection, attrChunk]
    exact parseNm_concat _ (by decide) ' ' (by decide) _
  have hlit : "stream:stream".toList = 's' :: "tream:stream".toList := by decide
  have hlen : 5 ≤ (streamAttrSection jid host).length := by
    rw [streamAttrSection, attrChunk]
    simp
  have hfuel : (streamAttrSection jid host).length + 1 =
      ((streamAttrSection jid host).length - 5) + 6 := by omega
  rw [streamPayload_shape, parseOpenTag]
  rw [hpn, hlit]
  simp only []
  rw [hfuel, parseAttrList_streamSection _ _ _ hj hh]
  simp [hlit]

/-! ## Characterization of `ToMap` -/

theorem ToMap_foldl (k : List Char) (l : List XmlAttr)
    (m : List Char → Option (List Char)) :
    (l.foldl (fun m a => fun k' => if k' = a.nameLocal then some a.value else m k')
        m) k =
      match l.reverse.find? (fun a => decide (a.nameLocal = k)) with
      | some a => some a.value
      | none => m k := by
  induction l generalizing m with
  | nil => simp
  | cons a l ih =>
    rw [List.foldl_cons, ih, List.reverse_cons, List.find?_append]
    cases hf : l.reverse.find? (fun a => decide (a.nameLocal = k)) with
    | some b => simp [Option.orElse]
    | none =>
      by_cases hk : a.nameLocal = k
      · simp [Option.orElse, List.find?, hk]
      · have hk' : ¬k = a.nameLocal := fun h => hk h.symm
        simp [Option.orElse, List.find?, hk, hk']

theorem ToMap_lastWins (l : List XmlAttr) (k : List Char) :
    ToMap l k =
      (l.reverse.find? (fun a => decide (a.nameLocal = k))).map
        (fun a => a.value) := by
  rw [ToMap, ToMap_foldl]
  cases hf : l.reverse.find? (fun a => decide (a.nameLocal = k)) <;> simp

theorem ToMap_eq_some_iff (l : List XmlAttr)
    (hnd : (l.map (fun a => a.nameLocal)).Nodup) (k v : List Char) :
    ToMap l k = some v ↔ ∃ a ∈ l, a.nameLocal = k ∧ a.value = v := by
  rw [ToMap_lastWins]
  constructor
  · intro h
    cases hf : l.reverse.find? (fun a => decide (a.nameLocal = k)) with
    | none => rw [hf] at h; simp at h
    | some b =>
      rw [hf] at h
      simp at h
      refine ⟨b, ?_, ?_, h⟩
      · exact List.mem_reverse.1 (List.mem_of_find?_eq_some hf)
      · have := List.find?_some hf
        simpa using this
  · rintro ⟨a, ha, hak, hav⟩
    cases hf : l.reverse.find? (fun a => decide (a.nameLocal = k)) with
    | none =>
      exfalso
      have := List.find?_eq_none.1 hf a (List.mem_reverse.2 ha)
      simp [hak] at this
    | some b =>
      have hb : b ∈ l := List.mem_reverse.1 (List.mem_of_find?_eq_some hf)
      have hbk : b.nameLocal = k := by
        have := List.find?_some hf
        simpa using this
      have hba : b = a :=
        List.inj_on_of_nodup_map hnd hb ha (hbk.trans hak.symm)
      simp [hba, hav]

theorem ToMap_eq_none_iff (l : List XmlAttr) (k : List Char) :
    ToMap l k = none ↔ ∀ a ∈ l, a.nameLocal ≠ k := by
  rw [ToMap_lastWins]
  cases hf : l.reverse.find? (fun a => decide (a.nameLocal = k)) with
  | none =>
    constructor
    · intro _ a ha hak
      have := List.find?_eq_none.1 hf a (List.mem_reverse.2 ha)
      simp [hak] at this
    · intro _
      rfl
  | some b =>
    constructor
    · intro h
      simp at h
    · intro hall
      exfalso
      have hb : b ∈ l := List.mem_reverse.1 (List.mem_of_find?_eq_some hf)
      have hbk : b.nameLocal = k := by
        have := List.find?_some hf
        simpa using this
      exact hall b hb hbk

/-! ## Helper lemmas about `next` and transports -/

theorem next_skip (t : TokenResult) (s : List TokenResult) (h : skippable t) :
    next (t :: s) = next s := by
  rw [h]
  rfl

theorem next_append_skippable (pre s : List TokenResult)
    (hpre : ∀ t ∈ pre, skippable t) :
    next (pre ++ s) = next s := by
  induction pre with
  | nil => rfl
  | cons t pre' ih =>
    rw [List.cons_append,
      next_skip t (pre' ++ s) (hpre t (List.mem_cons_self t pre')),
      ih (fun x hx => hpre x (List.mem_cons_of_mem t hx))]

theorem next_no_empty_success (s : List TokenResult) :
    (next s).2 = none → (next s).1.nameLocal ≠ [] := by
  induction s with
  | nil => intro h; simp [next] at h
  | cons t s' ih =>
    cases t with
    | err e => intro h; simp [next] at h
    | ok tk =>
      cases tk with
      | other => exact ih
      | start n a =>
        by_cases hn : n = []
        · intro h
          simp [next, hn] at h
        · intro _
          simp [next, hn]

theorem tlsClient_ne (t : Transport) (h : List Char) :
    Transport.tlsClient t h ≠ t := by
  intro heq
  have hs := congrArg sizeOf heq
  simp at hs
  omega

/-! ## The claims -/

/-- C1: for every message body string, including those containing the
characters needing escaping, `MUCSend` entity-escapes the body before
interpolating it into the `xmlMUCMessage` stanza; the emitted body content
is well-formed XML character data (no raw `<`, every `&` an entity, and no
`>` so no `]]>` can arise), and XML-decoding the emitted body content
yields the original string. -/
theorem C1_mucSend_escape_roundTrip (mtype toA frm bod i : List Char) :
    mucSendPayload mtype toA frm bod i =
      "<message from='".toList ++ frm ++ "' id='".toList ++ i ++
        "' to='".toList ++ toA ++ "' type='".toList ++ mtype ++
        "'><body>".toList ++ escapeString bod ++ "</body></message>".toList ∧
    wfText (escapeString bod) = true ∧
    '>' ∉ escapeString bod ∧
    unescape (escapeString bod) = bod :=
  ⟨rfl, wfText_escapeString bod, gt_notMem_escapeString bod,
    unescape_escapeString bod⟩

/-- C2: `Next` skips every non-start-element token and returns the first
start element; a transport failure is returned as an error, a start element
with empty local name is returned together with the invalid-response error,
and no successful return ever carries an empty-named element. -/
theorem C2_next_first_start (pre rest : List TokenResult) (n : List Char)
    (a : List XmlAttr) (e : GoError) (hpre : ∀ t ∈ pre, skippable t) :
    (n ≠ [] →
      next (pre ++ .ok (.start n a) :: rest) =
        ({ nameLocal := n, attrs := a }, none)) ∧
    next (pre ++ .err e :: rest) = (zeroElt, some e) ∧
    next (pre ++ .ok (.start [] a) :: rest) =
      ({ nameLocal := [], attrs := a }, some .invalidXMLResponse) ∧
    (∀ s : List TokenResult, (next s).2 = none → (next s).1.nameLocal ≠ []) := by
  refine ⟨?_, ?_, ?_, next_no_empty_success⟩
  · intro hn
    rw [next_append_skippable pre _ hpre]
    simp [next, hn]
  · rw [next_append_skippable pre _ hpre]
    rfl
  · rw [next_append_skippable pre _ hpre]
    rfl

theorem C2_next_first_start_witness :
    next ([.ok .other] ++ .ok (.start "a".toList []) :: []) =
      ({ nameLocal := "a".toList, attrs := [] }, none) :=
  (C2_next_first_start [.ok .other] [] "a".toList [] (.tokenFailed 0)
    (by decide)).1 (by decide)

/-- C3 as stated is false on the code: `Features` (likewise `Body` and
`Query`) sends its decode error on the installed error sink and still
returns the decode buffer to the caller with no error, rather than
returning the error directly. -/
theorem C3_counterexample :
    (FeaturesRun (some ⟨1, 0, false⟩) ⟨none, []⟩ (some (.decodeFailed 0))).2 =
      ErrDisp.sunk .delivered ∧
    ErrDisp.sunk .delivered ≠ ErrDisp.returned (.decodeFailed 0) ∧
    (FeaturesRun (some ⟨1, 0, false⟩) ⟨none, []⟩ (some (.decodeFailed 0))).1 =
      ⟨none, []⟩ := by
  refine ⟨rfl, ?_, rfl⟩
  decide

/-- C3 amended: `Next` returns its error directly to the caller and never
references the error sink, while `Features`, `Body` and `Query` push their
decode errors onto the installed error sink and return the decode buffer
with no caller-visible error. -/
theorem C3_amended_reader_error_paths (sink : Option ErrChan) (e : GoError)
    (f : FeaturesT) (b : List Char) (q : List ItemT) :
    (FeaturesRun sink f (some e)).2 = .sunk (chanSend sink) ∧
    (BodyRun sink b (some e)).2 = .sunk (chanSend sink) ∧
    (QueryRun sink q (some e)).2 = .sunk (chanSend sink) ∧
    (FeaturesRun sink f none).2 = .quiet ∧
    (BodyRun sink b none).2 = .quiet ∧
    (QueryRun sink q none).2 = .quiet ∧
    (FeaturesRun sink f (some e)).1 = f ∧
    (BodyRun sink b (some e)).1 = b ∧
    (QueryRun sink q (some e)).1 = q ∧
    next [.err e] = (zeroElt, some e) ∧
    nextDisp [.err e] = .returned e :=
  ⟨rfl, rfl, rfl, rfl, rfl, rfl, rfl, rfl, rfl, rfl, rfl⟩

/-- C4 as stated is false on the code: with no error sink installed,
`c.errchan` is nil, and a write failure makes the writer send on a nil
channel, which blocks it forever; the error is not dropped and the writer
is permanently blocked. -/
theorem C4_counterexample :
    (StreamRun none "u@h".toList "h".toList (some (.writeFailed 0))).2 =
      ErrDisp.sunk .blockedForever ∧
    SendOutcome.blockedForever ≠ SendOutcome.delivered := by
  refine ⟨rfl, ?_⟩
  decide

/-- C4 amended: every fire-and-forget writer operation shares one error
path; on a write error the error is sent on `c.errchan`, which delivers it
when a sink with buffer space (or a waiting receiver) is installed, blocks
the writer forever when no sink was ever installed (nil channel), and
blocks the writer until a receiver arrives when the installed sink is
full. -/
theorem C4_amended_writer_error_paths (sink : Option ErrChan) (e : GoError)
    (ch : ErrChan) (jid host user pass res frm toA i roomId pres mtype
      bod : List Char) (werr : Option GoError) :
    fireAndForget sink none = .quiet ∧
    fireAndForget none (some e) = .sunk .blockedForever ∧
    fireAndForget (some ch) (some e) =
      .sunk (if ch.pending < ch.cap then .delivered
        else if ch.receiverWaiting then .delivered
        else .blockedUntilReceiver) ∧
    (StreamRun sink jid host werr).2 = fireAndForget sink werr ∧
    (StartTLSRun sink werr).2 = fireAndForget sink werr ∧
    (AuthRun sink user pass res i werr).2 = fireAndForget sink werr ∧
    (DiscoverRun sink frm toA i werr).2 = fireAndForget sink werr ∧
    (PresenceRun sink jid pres werr).2 = fireAndForget sink werr ∧
    (MUCPartRun sink roomId werr).2 = fireAndForget sink werr ∧
    (MUCPresenceRun sink roomId jid i werr).2 = fireAndForget sink werr ∧
    (MUCSendRun sink mtype toA frm bod i werr).2 = fireAndForget sink werr ∧
    (RosterRun sink frm toA i werr).2 = fireAndForget sink werr :=
  ⟨rfl, rfl, rfl, rfl, rfl, rfl, rfl, rfl, rfl, rfl, rfl, rfl⟩

/-- C5: `KeepAlive` writes exactly one whitespace byte and returns its
write error synchronously to the caller (never via the error sink); on
success it returns no error. -/
theorem C5_keepAlive_direct_error (e : GoError) :
    keepAlivePayload.length = 1 ∧
    keepAlivePayload = [' '] ∧
    (' ').isWhitespace = true ∧
    (KeepAliveRun (some e)).1 = keepAlivePayload ∧
    (KeepAliveRun (some e)).2 = .returned e ∧
    (KeepAliveRun none).2 = .quiet :=
  ⟨rfl, rfl, rfl, rfl, rfl, rfl⟩

/-- C6: `Dial(host)` dials TCP address `host:5222`; on success the
returned connection's decoder is bound to the dialed socket and the error
is nil; on failure it returns the (non-nil) zero-value connection object
alongside the error. -/
theorem C6_dial (host : List Char) (e : GoError) (sock : Nat) :
    (DialRun host (.ok sock)).addr = host ++ ":5222".toList ∧
    (DialRun host (.error e)).addr = host ++ ":5222".toList ∧
    DialRun host (.error e) =
      { addr := dialAddr host, conn := zeroConn, err := some e } ∧
    (DialRun host (.error e)).err ≠ none ∧
    (DialRun host (.ok sock)).conn.outgoing = .tcp sock ∧
    (DialRun host (.ok sock)).conn.incoming =
      some ((DialRun host (.ok sock)).conn.outgoing) ∧
    (DialRun host (.ok sock)).err = none := by
  exact ⟨rfl, rfl, rfl, by rw [show (DialRun host (Except.error e)).err = some e from rfl]; simp, rfl, rfl, rfl⟩

set_option maxRecDepth 100000 in
/-- C7 as stated is false on the code: `Stream` interpolates the jid
verbatim, so for a jid containing a single quote the emitted header is not
a well-formed open tag (the attribute grammar fails to parse it), even
though XML attribute escaping would require that quote escaped. -/
theorem C7_counterexample :
    parseOpenTag (streamPayload "a'b".toList "example.com".toList) = none := by
  decide

/-- C7 amended: for every (jid, host) pair free of the characters that XML
single-quoted attribute escaping requires escaped (single quote, `<`, `&`),
`Stream` emits a single well-formed open tag named `stream:stream` whose
parsed attributes are exactly `from='jid'`, `to='host'`, `version='1.0'`,
`xml:lang='en'`, `xmlns='jabber:client'`,
`xmlns:stream='http://etherx.jabber.org/streams'`, with pairwise distinct
attribute names; inputs are interpolated without escaping, so the
restriction on the inputs is necessary. -/
theorem C7_amended_stream_header (jid host : List Char)
    (hj : ∀ c ∈ jid, isAttrValChar c = true)
    (hh : ∀ c ∈ host, isAttrValChar c = true)
    (sink : Option ErrChan) (werr : Option GoError) :
    parseOpenTag (streamPayload jid host) =
      some ("stream:stream".toList, streamAttrsOut jid host) ∧
    ((streamAttrsOut jid host).map Prod.fst).Nodup ∧
    (StreamRun sink jid host werr).1 = streamPayload jid host := by
  refine ⟨parseOpenTag_streamPayload jid host hj hh, ?_, rfl⟩
  simp only [streamAttrsOut, List.map]
  decide

theorem C7_amended_stream_header_witness :
    parseOpenTag
        (streamPayload "user@example.com".toList "example.com".toList) =
      some ("stream:stream".toList,
        streamAttrsOut "user@example.com".toList "example.com".toList) :=
  (C7_amended_stream_header "user@example.com".toList "example.com".toList
    (by decide) (by decide) none none).1

/-- C8: `ToMap` is order-independent whenever no local name repeats (any
permutation of the attribute sequence yields the same mapping), and in
every case the value of the attribute occurring last in source order wins
(the lookup equals the first match in the reversed sequence). -/
theorem C8_toMap_perm_lastWins (l l' : List XmlAttr) (hp : l.Perm l')
    (hnd : (l.map (fun a => a.nameLocal)).Nodup) :
    (∀ k, ToMap l k = ToMap l' k) ∧
    (∀ (m : List XmlAttr) (k : List Char),
      ToMap m k =
        (m.reverse.find? (fun a => decide (a.nameLocal = k))).map
          (fun a => a.value)) := by
  have hnd' : (l'.map (fun a => a.nameLocal)).Nodup :=
    ((hp.map (fun a => a.nameLocal)).nodup_iff).1 hnd
  refine ⟨?_, fun m k => ToMap_lastWins m k⟩
  intro k
  cases hv : ToMap l' k with
  | some v =>
    have ⟨a, ha, hak, hav⟩ := (ToMap_eq_some_iff l' hnd' k v).1 hv
    exact (ToMap_eq_some_iff l hnd k v).2 ⟨a, hp.mem_iff.2 ha, hak, hav⟩
  | none =>
    refine (ToMap_eq_none_iff l k).2 ?_
    intro a ha
    exact (ToMap_eq_none_iff l' k).1 hv a (hp.mem_iff.1 ha)

theorem C8_toMap_perm_lastWins_witness :
    ToMap [⟨"a".toList, "1".toList⟩, ⟨"b".toList, "2".toList⟩] "a".toList =
      ToMap [⟨"b".toList, "2".toList⟩, ⟨"a".toList, "1".toList⟩] "a".toList :=
  (C8_toMap_perm_lastWins
    [⟨"a".toList, "1".toList⟩, ⟨"b".toList, "2".toList⟩]
    [⟨"b".toList, "2".toList⟩, ⟨"a".toList, "1".toList⟩]
    (by decide) (by decide)).1 "a".toList

/-- C9: after `UseTLS(host)`, the write side is the TLS wrapper around the
previous transport and the decoder is rebound to exactly that TLS wrapper;
neither side equals the pre-upgrade transport, and the error channel is
untouched. -/
theorem C9_useTLS_rebinds (c : ConnM) (host : List Char) :
    (UseTLSRun c host).outgoing = .tlsClient c.outgoing host ∧
    (UseTLSRun c host).incoming = some ((UseTLSRun c host).outgoing) ∧
    (UseTLSRun c host).outgoing ≠ c.outgoing ∧
    (UseTLSRun c host).incoming ≠ some c.outgoing ∧
    (UseTLSRun c host).errchan = c.errchan := by
  refine ⟨rfl, rfl, tlsClient_ne c.outgoing host, ?_, rfl⟩
  intro h
  exact tlsClient_ne c.outgoing host (Option.some_injective _ h)

set_option maxRecDepth 100000 in
/-- C10: among the interpolated caller-supplied fields of the writer
operations, only the body argument of `MUCSend` passes through
`html.EscapeString`; the remaining `MUCSend` arguments and every argument
of `Stream`, `Auth`, `Presence`, `Discover`, `Roster`, `MUCPart` and
`MUCPresence` are spliced into the templates verbatim, and consequently a
quote-bearing input yields a fragment that is not well-formed XML. -/
theorem C10_verbatim_interpolation (jid host user pass res frm toA i roomId
    pres mtype bod : List Char) :
    mucSendPayload mtype toA frm bod i =
      "<message from='".toList ++ frm ++ "' id='".toList ++ i ++
        "' to='".toList ++ toA ++ "' type='".toList ++ mtype ++
        "'><body>".toList ++ escapeString bod ++ "</body></message>".toList ∧
    streamPayload jid host =
      "<stream:stream from='".toList ++ jid ++ "' to='".toList ++ host ++
        "' version='1.0' xml:lang='en' xmlns='".toList ++ NsJabberClient ++
        "' xmlns:stream='".toList ++ NsStream ++ "'>".toList ∧
    authPayload i user pass res =
      "<iq type='set' id='".toList ++ i ++ "'><query xmlns='".toList ++
        NsIqAuth ++ "'><username>".toList ++ user ++
        "</username><password>".toList ++ pass ++
        "</password><resource>".toList ++ res ++
        "</resource></query></iq>".toList ∧
    presencePayload jid pres =
      "<presence from='".toList ++ jid ++ "'><show>".toList ++ pres ++
        "</show></presence>".toList ∧
    discoverPayload frm toA i =
      "<iq from='".toList ++ frm ++ "' to='".toList ++ toA ++
        "' id='".toList ++ i ++ "' type='get'><query xmlns='".toList ++
        NsDisco ++ "'/></iq>".toList ∧
    rosterPayload frm toA i =
      "<iq from='".toList ++ frm ++ "' to='".toList ++ toA ++
        "' id='".toList ++ i ++ "' type='get'><query xmlns='".toList ++
        NsIqRoster ++ "'/></iq>".toList ∧
    mucPartPayload roomId =
      "<presence to='".toList ++ roomId ++
        "' type='unavailable'></presence>".toList ∧
    mucPresencePayload i roomId jid =
      "<presence id='".toList ++ i ++ "' to='".toList ++ roomId ++
        "' from='".toList ++ jid ++ "'><x xmlns='".toList ++ NsMuc ++
        "'/></presence>".toList ∧
    parseOpenTag (streamPayload "alice".toList "bad'host".toList) = none := by
  refine ⟨rfl, rfl, rfl, rfl, rfl, rfl, rfl, rfl, ?_⟩
  decide

end Xmpp
